import Mathlib

/-!
Shallow embedding of the caching subsystem of the pantry-server repository:
the generic TTL cache (`app/core/cache.py`), the retriever cache
(`app/ai/retriever_cache.py`), and the cache-invalidation glue in the
request handlers (`app/routers/pantry.py`, `app/routers/household.py`).

Python dictionaries are modelled as association lists over `String` keys:
lookup takes the first matching pair, assignment replaces the first matching
pair in place (or appends), deletion removes every pair with the key (on the
duplicate-free states reachable from a real dict the three agree exactly with
dict semantics).  Wall-clock / monotonic instants are modelled as `Int` and
threaded explicitly; Python `None` is modelled by `Option.none`, so a value
stored in the generic cache has type `Option α` and `get` returns `Option α`
(reproducing Python's conflation of "missing" with "stored None").
-/

namespace PantrySpec

/-- First-match lookup, modelling `d.get(k)` / `k in d` on a Python dict. -/
def dictGet {β : Type} (k : String) : List (String × β) → Option β
  | [] => none
  | (k', v) :: rest => if k' = k then some v else dictGet k rest

/-- In-place update-or-append, modelling `d[k] = v` on a Python dict. -/
def dictSet {β : Type} (k : String) (v : β) : List (String × β) → List (String × β)
  | [] => [(k, v)]
  | (k', v') :: rest => if k' = k then (k, v) :: rest else (k', v') :: dictSet k v rest

/-- Key removal, modelling `del d[k]` (guarded by `k in d`) on a Python dict. -/
def dictDelete {β : Type} (k : String) (l : List (String × β)) : List (String × β) :=
  l.filter (fun p => p.1 ≠ k)

/-!
## TTL cache (`app/core/cache.py`, class `TTLCache`)

The state is the backing dict `_cache : key ↦ (value, expiry_time)` together
with the constructor-configured `default_ttl_seconds`.  Stored values have
type `Option α` because the Python cache stores arbitrary values including
`None`.
-/

structure TTLCache (α : Type) where
  cache : List (String × (Option α × Int))
  default_ttl_seconds : Int
  deriving DecidableEq, Repr

/-- `TTLCache.get`: return the stored value if the key is present and not
expired; an entry whose `expiry_time` is strictly in the past is evicted as a
side effect and the call returns `None`. -/
def TTLCache.get {α : Type} (c : TTLCache α) (now : Int) (key : String) :
    TTLCache α × Option α :=
  match dictGet key c.cache with
  | none => (c, none)
  | some (value, expiry_time) =>
    if now > expiry_time then
      ({ c with cache := dictDelete key c.cache }, none)
    else
      (c, value)

/-- `TTLCache.set`: store `value` under `key` with expiry `now + ttl`, where
`ttl` is the argument if supplied and the instance default otherwise. -/
def TTLCache.set {α : Type} (c : TTLCache α) (key : String) (value : Option α)
    (ttl_seconds : Option Int) (now : Int) : TTLCache α :=
  let ttl := ttl_seconds.getD c.default_ttl_seconds
  { c with cache := dictSet key (value, now + ttl) c.cache }

/-- `TTLCache.delete`: remove the entry if present; no-op otherwise. -/
def TTLCache.delete {α : Type} (c : TTLCache α) (key : String) : TTLCache α :=
  { c with cache := dictDelete key c.cache }

/-- `TTLCache.clear`: remove all entries. -/
def TTLCache.clear {α : Type} (c : TTLCache α) : TTLCache α :=
  { c with cache := [] }

/-- `TTLCache._evict_expired`: drop every entry whose expiry is strictly past. -/
def TTLCache.evict_expired {α : Type} (c : TTLCache α) (now : Int) : TTLCache α :=
  { c with cache := c.cache.filter (fun p => ¬ (now > p.2.2)) }

/-- `TTLCache.size`: number of entries after sweeping expired ones. -/
def TTLCache.size {α : Type} (c : TTLCache α) (now : Int) : TTLCache α × Nat :=
  let c' := c.evict_expired now
  (c', c'.cache.length)

/-!
## The `cached` decorator (`app/core/cache.py`, `cached`)

One wrapped call is modelled as a state transformer: compute the key (the
caller supplies it, as the key derivation is a pure function of the
arguments), consult the cache, and on a miss invoke the wrapped function
(`f ()`), store its result and return it.  The third component counts how
many times the wrapped function was invoked during this call (0 or 1).
-/

def cachedCall {α : Type} (c : TTLCache α) (now : Int) (cache_key : String)
    (ttl_seconds : Int) (f : Unit → Option α) : TTLCache α × Option α × Nat :=
  let r := c.get now cache_key
  match r.2 with
  | some x => (r.1, some x, 0)
  | none =>
    let result := f ()
    (r.1.set cache_key result (some ttl_seconds) now, result, 1)

/-!
## Retriever cache (`app/ai/retriever_cache.py`, class `RetrieverCache`)

An entry is `(documents, serialized, fetched_at, household_id)`.  The key is
`sha256(f"{household_id}:{query}:{k}")`; the hash itself lives in Python's
`hashlib` (an external collaborator), so it is modelled as an explicit
`hash : String → String` argument applied to the raw concatenation, which is
what the repository's code constructs.  `Doc` is the opaque
`langchain_core.documents.Document` type, never inspected by the cache.
-/

/-- The raw pre-hash string `f"{household_id}:{query}:{k}"` of
`RetrieverCache._make_key`. -/
def rawKey (household_id query : String) (k : Nat) : String :=
  household_id ++ ":" ++ query ++ ":" ++ toString k

/-- `RetrieverCache._make_key`: the hash (modelling `hashlib.sha256(...).hexdigest()`)
of the raw concatenation. -/
def make_key (hash : String → String) (household_id query : String) (k : Nat) : String :=
  hash (rawKey household_id query k)

structure RetrieverCache (Doc : Type) where
  ttl : Int
  store : List (String × (List Doc × String × Int × String))
  pantry_state : List (String × String)
  deriving DecidableEq, Repr

/-- The `household_id` component stored in a retriever-cache entry. -/
def entryScope {Doc : Type} (e : List Doc × String × Int × String) : String :=
  e.2.2.2

/-- `RetrieverCache.get`: look the derived key up; a present entry older than
the TTL is evicted and treated as absent; otherwise `(serialized, documents)`
is returned. -/
def RetrieverCache.get {Doc : Type} (hash : String → String) (c : RetrieverCache Doc)
    (now : Int) (household_id query : String) (k : Nat) :
    RetrieverCache Doc × Option (String × List Doc) :=
  let key := make_key hash household_id query k
  match dictGet key c.store with
  | none => (c, none)
  | some (documents, serialized, fetched_at, _) =>
    if now - fetched_at > c.ttl then
      ({ c with store := dictDelete key c.store }, none)
    else
      (c, some (serialized, documents))

/-- `RetrieverCache.set`: store the entry under the derived key, stamped with
the current time and the owning household scope. -/
def RetrieverCache.set {Doc : Type} (hash : String → String) (c : RetrieverCache Doc)
    (now : Int) (household_id query : String) (k : Nat)
    (documents : List Doc) (serialized : String) : RetrieverCache Doc :=
  { c with
    store := dictSet (make_key hash household_id query k)
      (documents, serialized, now, household_id) c.store }

/-- `RetrieverCache.invalidate_household`: delete every stored entry whose
household scope equals the argument, and drop the reserved pantry-state token. -/
def RetrieverCache.invalidate_household {Doc : Type} (c : RetrieverCache Doc)
    (household_id : String) : RetrieverCache Doc :=
  { c with
    store := c.store.filter (fun p => entryScope p.2 ≠ household_id)
    pantry_state := dictDelete household_id c.pantry_state }

/-- `RetrieverCache.update_pantry_state`: report whether the version token
changed, storing the new token when it did. -/
def RetrieverCache.update_pantry_state {Doc : Type} (c : RetrieverCache Doc)
    (household_id latest_updated_at : String) : RetrieverCache Doc × Bool :=
  let previous := dictGet household_id c.pantry_state
  if previous ≠ some latest_updated_at then
    ({ c with pantry_state := dictSet household_id latest_updated_at c.pantry_state }, true)
  else
    (c, false)

/-!
## Pantry router (`app/routers/pantry.py`)

The handlers are modelled as functions of the outcome of the pantry-service
call (an external collaborator backed by the data store): the service call
either raises (`Except.error`), returns Python `None` (`Except.ok none`), or
returns a response (`Except.ok (some r)`).  Each handler returns the response
or the raised error, together with the cache state after the handler body.
`ε` is the type of exceptions raised by the service, `ρ` the response type,
`α` the value type of the process-wide `TTLCache`.
-/

structure AppError where
  message : String
  status_code : Nat
  deriving DecidableEq, Repr

/-- `_invalidate_household_cache`: delete the household listing key. -/
def invalidate_household_cache {α : Type} (c : TTLCache α) (household_id : String) :
    TTLCache α :=
  c.delete ("pantry:household:" ++ household_id)

/-- `_invalidate_user_cache`: delete the per-user listing key. -/
def invalidate_user_cache {α : Type} (c : TTLCache α) (household_id user_id : String) :
    TTLCache α :=
  c.delete ("pantry:user:" ++ household_id ++ ":" ++ user_id)

/-- The household listing cache key `f"pantry:household:{household_id}"`. -/
def hh_cache_key (household_id : String) : String :=
  "pantry:household:" ++ household_id

/-- The per-user listing cache key `f"pantry:user:{household_id}:{user_id}"`. -/
def user_cache_key (household_id user_id : String) : String :=
  "pantry:user:" ++ household_id ++ ":" ++ user_id

/-- `add_single_pantry_item`: on a service exception the error propagates and
the cache is untouched; on a `None` result an `AppError` 500 is raised and the
cache is untouched; on success both listing keys are invalidated before the
response is returned. -/
def add_single_pantry_item {ε ρ α : Type} (svc : Except ε (Option ρ))
    (c : TTLCache α) (household_id user_id : String) :
    Except (ε ⊕ AppError) ρ × TTLCache α :=
  match svc with
  | .error e => (.error (.inl e), c)
  | .ok none => (.error (.inr ⟨"Failed to add pantry item", 500⟩), c)
  | .ok (some result) =>
    let c1 := invalidate_household_cache c household_id
    let c2 := invalidate_user_cache c1 household_id user_id
    (.ok result, c2)

/-- `add_multiple_pantry_items`: empty-payload check first (HTTP 400, no
invalidation), then the same raise / `None` / success structure as the single
add. -/
def add_multiple_pantry_items {ε ρ ι α : Type} (items : List ι)
    (svc : Except ε (Option ρ)) (c : TTLCache α) (household_id user_id : String) :
    Except (ε ⊕ AppError) ρ × TTLCache α :=
  if items.isEmpty then
    (.error (.inr ⟨"No pantry items provided", 400⟩), c)
  else
    match svc with
    | .error e => (.error (.inl e), c)
    | .ok none => (.error (.inr ⟨"Bulk pantry add failed", 500⟩), c)
    | .ok (some result) =>
      let c1 := invalidate_household_cache c household_id
      let c2 := invalidate_user_cache c1 household_id user_id
      (.ok result, c2)

/-- `update_pantry_item`: raise / 404-on-`None` / invalidate-then-return. -/
def update_pantry_item {ε ρ α : Type} (svc : Except ε (Option ρ))
    (c : TTLCache α) (household_id user_id : String) :
    Except (ε ⊕ AppError) ρ × TTLCache α :=
  match svc with
  | .error e => (.error (.inl e), c)
  | .ok none => (.error (.inr ⟨"Pantry item not found or could not be updated", 404⟩), c)
  | .ok (some result) =>
    let c1 := invalidate_household_cache c household_id
    let c2 := invalidate_user_cache c1 household_id user_id
    (.ok result, c2)

/-- `delete_pantry_item`: raise / 404-on-`None` / invalidate-then-return. -/
def delete_pantry_item {ε ρ α : Type} (item_id : String) (svc : Except ε (Option ρ))
    (c : TTLCache α) (household_id user_id : String) :
    Except (ε ⊕ AppError) ρ × TTLCache α :=
  match svc with
  | .error e => (.error (.inl e), c)
  | .ok none => (.error (.inr ⟨"Pantry item not found for deletion", 404⟩), c)
  | .ok (some result) =>
    let c1 := invalidate_household_cache c household_id
    let c2 := invalidate_user_cache c1 household_id user_id
    (.ok result, c2)

/-- A pantry mutation viewed against the whole cache state of the process:
`app/routers/pantry.py` imports only the generic `TTLCache`; the retriever
cache is never referenced by any pantry handler, so it passes through
unchanged. -/
def add_single_pantry_item_full {ε ρ α Doc : Type} (svc : Except ε (Option ρ))
    (tc : TTLCache α) (rc : RetrieverCache Doc) (household_id user_id : String) :
    Except (ε ⊕ AppError) ρ × TTLCache α × RetrieverCache Doc :=
  let r := add_single_pantry_item svc tc household_id user_id
  (r.1, r.2, rc)

/-!
## Household router (`app/routers/household.py`)

`join_household` and `leave_household` each delegate to the household service
(`app/services/house_hold_service.py`) and return its result.  Neither the
handlers nor the household service reference any cache, so both cache states
pass through unchanged.
-/

/-- `join_household`: returns the service outcome; no cache interaction. -/
def join_household {ε ρ α Doc : Type} (svc : Except ε ρ) (tc : TTLCache α)
    (rc : RetrieverCache Doc) : Except ε ρ × TTLCache α × RetrieverCache Doc :=
  (svc, tc, rc)

/-- `leave_household`: returns the service outcome; no cache interaction. -/
def leave_household {ε ρ α Doc : Type} (svc : Except ε ρ) (tc : TTLCache α)
    (rc : RetrieverCache Doc) : Except ε ρ × TTLCache α × RetrieverCache Doc :=
  (svc, tc, rc)

/-!
## Predicates used to state the scoped-invalidation properties
-/

/-- A string containing no `':'` character.  Household scopes in the running
system are UUID strings or the literal `"global"`, both colon-free; the colon
is the separator `_make_key` uses, so colon-freeness is what makes the raw key
parseable. -/
def colonFree (s : String) : Prop :=
  ':' ∉ s.data

/-- No stored retriever-cache entry carries the given household scope. -/
def noScope {Doc : Type} (household_id : String) (c : RetrieverCache Doc) : Prop :=
  ∀ p ∈ c.store, entryScope p.2 ≠ household_id

/-- Every stored entry is keyed by the derived key of its own recorded
household scope (with a colon-free scope) — the invariant every state built by
`RetrieverCache.set` from the empty cache satisfies. -/
def coherent {Doc : Type} (hash : String → String) (c : RetrieverCache Doc) : Prop :=
  ∀ p ∈ c.store,
    colonFree (entryScope p.2)
    ∧ ∃ q k, p.1 = make_key hash (entryScope p.2) q k

/-!
## Library lemmas about the dict model and the decorator
-/

theorem dictGet_dictSet_self {β : Type} (k : String) (v : β) (l : List (String × β)) :
    dictGet k (dictSet k v l) = some v := by
  induction l with
  | nil => simp [dictGet, dictSet]
  | cons p rest ih =>
    by_cases h : p.1 = k
    · simp [dictSet, dictGet, h]
    · simp [dictSet, dictGet, h, ih]

theorem dictGet_dictSet_ne {β : Type} (k k' : String) (v : β) (l : List (String × β))
    (h : k' ≠ k) : dictGet k (dictSet k' v l) = dictGet k l := by
  induction l with
  | nil => simp [dictGet, dictSet, h]
  | cons p rest ih =>
    by_cases hp : p.1 = k'
    · simp [dictSet, dictGet, hp, h, ih]
    · simp [dictSet, dictGet, hp, ih]

theorem dictGet_dictDelete_self {β : Type} (k : String) (l : List (String × β)) :
    dictGet k (dictDelete k l) = none := by
  induction l with
  | nil => simp [dictGet, dictDelete]
  | cons p rest ih =>
    by_cases h : p.1 = k
    · simpa [dictDelete, h] using ih
    · simpa [dictDelete, dictGet, h] using ih

theorem dictGet_dictDelete_ne {β : Type} (k k' : String) (l : List (String × β))
    (h : k' ≠ k) : dictGet k (dictDelete k' l) = dictGet k l := by
  induction l with
  | nil => simp [dictDelete]
  | cons p rest ih =>
    by_cases hp : p.1 = k'
    · simp [dictDelete, dictGet, hp, h] at ih ⊢
      simpa [Ne.symm h] using ih
    · simp [dictDelete, dictGet, hp] at ih ⊢
      by_cases hk : p.1 = k <;> simp [hk, ih]

theorem dictGet_mem {β : Type} {k : String} {v : β} {l : List (String × β)}
    (h : dictGet k l = some v) : (k, v) ∈ l := by
  induction l with
  | nil => simp [dictGet] at h
  | cons p rest ih =>
    obtain ⟨pk, pv⟩ := p
    by_cases hp : pk = k
    · simp [dictGet, hp] at h
      subst hp
      subst h
      simp
    · simp [dictGet, hp] at h
      exact List.mem_cons_of_mem _ (ih h)

theorem mem_dictSet {β : Type} {k : String} {v : β} {p : String × β}
    {l : List (String × β)} (h : p ∈ dictSet k v l) : p = (k, v) ∨ p ∈ l := by
  induction l with
  | nil => simpa [dictSet] using h
  | cons q rest ih =>
    by_cases hq : q.1 = k
    · simp [dictSet, hq] at h
      rcases h with h | h
      · exact Or.inl h
      · exact Or.inr (List.mem_cons_of_mem _ h)
    · simp [dictSet, hq] at h
      rcases h with h | h
      · exact Or.inr (by simp [h])
      · rcases ih h with h' | h'
        · exact Or.inl h'
        · exact Or.inr (List.mem_cons_of_mem _ h')

theorem dictGet_filter_none {β : Type} {k : String} {l : List (String × β)}
    (q : String × β → Bool) (h : dictGet k l = none) :
    dictGet k (l.filter q) = none := by
  induction l with
  | nil => simp [dictGet]
  | cons p rest ih =>
    by_cases hp : p.1 = k
    · simp [dictGet, hp] at h
    · simp [dictGet, hp] at h
      by_cases hqp : q p = true
      · simp [List.filter_cons, hqp, dictGet, hp]
        exact ih h
      · simp [List.filter_cons, hqp]
        exact ih h

theorem dictGet_filter {β : Type} {k : String} {v : β} {l : List (String × β)}
    (q : String × β → Bool)
    (h : dictGet k l = some v) (hq : q (k, v) = true) :
    dictGet k (l.filter q) = some v := by
  induction l with
  | nil => simp [dictGet] at h
  | cons p rest ih =>
    by_cases hp : p.1 = k
    · simp [dictGet, hp] at h
      have hpk : p = (k, v) := by cases p; simp_all
      simp [hpk, List.filter_cons, hq, dictGet]
    · simp [dictGet, hp] at h
      by_cases hqp : q p = true
      · simp [List.filter_cons, hqp, dictGet, hp]
        exact ih h
      · simp [List.filter_cons, hqp]
        exact ih h

theorem cachedCall_of_get_none {α : Type} (c : TTLCache α) (now : Int) (key : String)
    (ttl : Int) (f : Unit → Option α) (h : (TTLCache.get c now key).2 = none) :
    cachedCall c now key ttl f
      = (TTLCache.set (TTLCache.get c now key).1 key (f ()) (some ttl) now, f (), 1) := by
  simp [cachedCall, h]

theorem cachedCall_of_get_some {α : Type} (c : TTLCache α) (now : Int) (key : String)
    (ttl : Int) (f : Unit → Option α) (x : α)
    (h : (TTLCache.get c now key).2 = some x) :
    cachedCall c now key ttl f = ((TTLCache.get c now key).1, some x, 0) := by
  simp [cachedCall, h]

/-!
## Splitting raw keys at their colons

`_make_key` hashes `f"{household_id}:{query}:{k}"`.  With a colon-free
household id the first colon delimits the household, and since the decimal
digits of `k` are colon-free the last colon delimits `k`; the query in the
middle may contain colons.  The lemmas below make this parsing argument
precise, via the bridge from core's `Nat.toDigitsCore` to Mathlib's
`Nat.digits`.
-/

theorem colon_split {a : List Char} : ∀ {b s t : List Char}, ':' ∉ a → ':' ∉ b →
    a ++ ':' :: s = b ++ ':' :: t → a = b ∧ s = t := by
  induction a with
  | nil =>
    intro b s t _ hb h
    cases b with
    | nil => simpa using h
    | cons y ys =>
      simp only [List.nil_append, List.cons_append, List.cons.injEq] at h
      rw [← h.1] at hb
      exact absurd (List.mem_cons_self _ _) hb
  | cons x xs ih =>
    intro b s t ha hb h
    have hax : ':' ≠ x := fun e => ha (e ▸ List.mem_cons_self _ _)
    have ha' : ':' ∉ xs := fun hm => ha (List.mem_cons_of_mem _ hm)
    cases b with
    | nil =>
      simp only [List.nil_append, List.cons_append, List.cons.injEq] at h
      exact absurd h.1.symm hax
    | cons y ys =>
      have hb' : ':' ∉ ys := fun hm => hb (List.mem_cons_of_mem _ hm)
      simp only [List.cons_append, List.cons.injEq] at h
      obtain ⟨hxy, hrest⟩ := h
      obtain ⟨h1, h2⟩ := ih ha' hb' hrest
      exact ⟨by rw [hxy, h1], h2⟩

theorem colon_split_last {s t a b : List Char} (ha : ':' ∉ a) (hb : ':' ∉ b)
    (h : s ++ ':' :: a = t ++ ':' :: b) : s = t ∧ a = b := by
  have hrev := congrArg List.reverse h
  rw [List.reverse_append, List.reverse_append, List.reverse_cons, List.reverse_cons,
    List.append_assoc, List.append_assoc, List.singleton_append, List.singleton_append] at hrev
  have ha' : ':' ∉ a.reverse := fun hm => ha (List.mem_reverse.mp hm)
  have hb' : ':' ∉ b.reverse := fun hm => hb (List.mem_reverse.mp hm)
  obtain ⟨h1, h2⟩ := colon_split ha' hb' hrev
  constructor
  · have h2' := congrArg List.reverse h2
    simpa using h2'
  · have h1' := congrArg List.reverse h1
    simpa using h1'

theorem digitChar_ne_colon (n : Nat) : Nat.digitChar n ≠ ':' := by
  by_cases h : n < 16
  · interval_cases n <;> decide
  · have h0 : Nat.digitChar n = '*' := by
      unfold Nat.digitChar
      have hc : ∀ m : Nat, m < 16 → ¬ n = m := by omega
      rw [if_neg (hc 0 (by norm_num)), if_neg (hc 1 (by norm_num)),
        if_neg (hc 2 (by norm_num)), if_neg (hc 3 (by norm_num)),
        if_neg (hc 4 (by norm_num)), if_neg (hc 5 (by norm_num)),
        if_neg (hc 6 (by norm_num)), if_neg (hc 7 (by norm_num)),
        if_neg (hc 8 (by norm_num)), if_neg (hc 9 (by norm_num)),
        if_neg (hc 10 (by norm_num)), if_neg (hc 11 (by norm_num)),
        if_neg (hc 12 (by norm_num)), if_neg (hc 13 (by norm_num)),
        if_neg (hc 14 (by norm_num)), if_neg (hc 15 (by norm_num))]
    rw [h0]
    decide

theorem digitChar_inj_lt {m n : Nat} (hm : m < 10) (hn : n < 10)
    (h : Nat.digitChar m = Nat.digitChar n) : m = n := by
  interval_cases m <;> interval_cases n <;> revert h <;> decide

theorem toDigitsCore_eq_digits :
    ∀ (fuel n : Nat) (ds : List Char), 0 < n → n < fuel →
      Nat.toDigitsCore 10 fuel n ds
        = ((Nat.digits 10 n).reverse.map Nat.digitChar) ++ ds := by
  intro fuel
  induction fuel with
  | zero =>
    intro n ds hn hlt
    omega
  | succ f ih =>
    intro n ds hn hlt
    have hdig := @Nat.digits_def' 10 (by norm_num) n hn
    have hstep : Nat.toDigitsCore 10 (f + 1) n ds
        = if n / 10 = 0 then Nat.digitChar (n % 10) :: ds
          else Nat.toDigitsCore 10 f (n / 10) (Nat.digitChar (n % 10) :: ds) := rfl
    rw [hstep]
    by_cases hq : n / 10 = 0
    · rw [if_pos hq, hdig, hq]
      simp
    · rw [if_neg hq]
      have hn' : 0 < n / 10 := Nat.pos_of_ne_zero hq
      have hlt' : n / 10 < f := by
        have hdl : n / 10 < n := Nat.div_lt_self hn (by norm_num)
        have h10 : 10 ≤ n := by
          by_contra hc
          exact hq (Nat.div_eq_of_lt (by omega))
        omega
      rw [ih (n / 10) (Nat.digitChar (n % 10) :: ds) hn' hlt', hdig]
      simp

theorem repr_eq_of_pos (n : Nat) (hn : 0 < n) :
    Nat.repr n = ((Nat.digits 10 n).reverse.map Nat.digitChar).asString := by
  unfold Nat.repr Nat.toDigits
  rw [toDigitsCore_eq_digits (n + 1) n [] hn (by omega)]
  simp

theorem asString_inj {l1 l2 : List Char} (h : l1.asString = l2.asString) : l1 = l2 :=
  congrArg String.data h

theorem map_digitChar_inj :
    ∀ (l1 l2 : List Nat), (∀ x ∈ l1, x < 10) → (∀ x ∈ l2, x < 10) →
      l1.map Nat.digitChar = l2.map Nat.digitChar → l1 = l2 := by
  intro l1
  induction l1 with
  | nil =>
    intro l2 _ _ h
    cases l2 with
    | nil => rfl
    | cons y ys => simp at h
  | cons x xs ih =>
    intro l2 h1 h2 h
    cases l2 with
    | nil => simp at h
    | cons y ys =>
      simp only [List.map_cons, List.cons.injEq] at h
      have hx : x < 10 := h1 x (List.mem_cons_self _ _)
      have hy : y < 10 := h2 y (List.mem_cons_self _ _)
      have hxy : x = y := digitChar_inj_lt hx hy h.1
      have hxys : xs = ys :=
        ih ys (fun z hz => h1 z (List.mem_cons_of_mem _ hz))
          (fun z hz => h2 z (List.mem_cons_of_mem _ hz)) h.2
      rw [hxy, hxys]

theorem repr_pos_ne_repr_zero (b : Nat) (hb : 0 < b) : Nat.repr b ≠ Nat.repr 0 := by
  intro h
  rw [repr_eq_of_pos b hb] at h
  have hdata : ((Nat.digits 10 b).reverse.map Nat.digitChar) = ['0'] :=
    congrArg String.data h
  rcases hrev : (Nat.digits 10 b).reverse with _ | ⟨d, ds⟩
  · rw [hrev] at hdata
    simp at hdata
  · rw [hrev] at hdata
    simp only [List.map_cons, List.cons.injEq] at hdata
    have hdmem : d ∈ Nat.digits 10 b := by
      have : d ∈ (Nat.digits 10 b).reverse := by
        rw [hrev]
        exact List.mem_cons_self _ _
      simpa using this
    have hdlt : d < 10 := Nat.digits_lt_base (by norm_num) hdmem
    have hds : ds = [] := by
      have := hdata.2
      simpa using this
    have hd0 : d = 0 := digitChar_inj_lt hdlt (by norm_num) (hdata.1.trans rfl)
    have hdig : Nat.digits 10 b = [0] := by
      have hrr := congrArg List.reverse hrev
      rw [List.reverse_reverse] at hrr
      rw [hrr, hds, hd0]
      rfl
    have hlast := Nat.getLast_digit_ne_zero 10 (show b ≠ 0 by omega)
    revert hlast
    simp [hdig]

theorem nat_repr_injective : Function.Injective Nat.repr := by
  intro a b h
  rcases Nat.eq_zero_or_pos a with ha | ha
  · rcases Nat.eq_zero_or_pos b with hb | hb
    · omega
    · subst ha
      exact absurd h.symm (repr_pos_ne_repr_zero b hb)
  · rcases Nat.eq_zero_or_pos b with hb | hb
    · subst hb
      exact absurd h (repr_pos_ne_repr_zero a ha)
    · rw [repr_eq_of_pos a ha, repr_eq_of_pos b hb] at h
      have hdata := asString_inj h
      have hdlt1 : ∀ x ∈ (Nat.digits 10 a).reverse, x < 10 := by
        intro x hx
        exact Nat.digits_lt_base (by norm_num) (List.mem_reverse.mp hx)
      have hdlt2 : ∀ x ∈ (Nat.digits 10 b).reverse, x < 10 := by
        intro x hx
        exact Nat.digits_lt_base (by norm_num) (List.mem_reverse.mp hx)
      have hrev := map_digitChar_inj _ _ hdlt1 hdlt2 hdata
      have hdig : Nat.digits 10 a = Nat.digits 10 b := by
        have := congrArg List.reverse hrev
        simpa using this
      exact Nat.digits_inj_iff.mp hdig

theorem toString_nat_eq_repr (k : Nat) : (toString k : String) = Nat.repr k := rfl

theorem colonFree_nat_repr (n : Nat) : colonFree (Nat.repr n) := by
  rcases Nat.eq_zero_or_pos n with h | h
  · subst h
    show ':' ∉ "0".data
    decide
  · rw [repr_eq_of_pos n h]
    show ':' ∉ ((Nat.digits 10 n).reverse.map Nat.digitChar)
    intro hmem
    obtain ⟨d, _, hd⟩ := List.mem_map.mp hmem
    exact digitChar_ne_colon d hd

theorem rawKey_inj {h1 h2 q1 q2 : String} {k1 k2 : Nat}
    (hc1 : colonFree h1) (hc2 : colonFree h2)
    (heq : rawKey h1 q1 k1 = rawKey h2 q2 k2) :
    h1 = h2 ∧ q1 = q2 ∧ k1 = k2 := by
  have hdata := congrArg String.data heq
  have hcolon : (":" : String).data = [':'] := rfl
  simp only [rawKey, String.data_append, hcolon, List.append_assoc,
    List.singleton_append] at hdata
  obtain ⟨hh, hrest⟩ := colon_split hc1 hc2 hdata
  have hkcf1 : ':' ∉ (toString k1 : String).data := by
    rw [toString_nat_eq_repr]
    exact colonFree_nat_repr k1
  have hkcf2 : ':' ∉ (toString k2 : String).data := by
    rw [toString_nat_eq_repr]
    exact colonFree_nat_repr k2
  obtain ⟨hq, hk⟩ := colon_split_last hkcf1 hkcf2 hrest
  refine ⟨String.ext hh, String.ext hq, ?_⟩
  have hkk : (toString k1 : String) = toString k2 := String.ext hk
  rw [toString_nat_eq_repr, toString_nat_eq_repr] at hkk
  exact nat_repr_injective hkk

/-!
## Invariants of the retriever cache
-/

theorem coherent_set {Doc : Type} {hash : String → String} {c : RetrieverCache Doc}
    (hco : coherent hash c) {h' : String} (hcf : colonFree h') (now : Int) (q : String)
    (k : Nat) (d : List Doc) (s : String) :
    coherent hash (RetrieverCache.set hash c now h' q k d s) := by
  intro p hp
  rcases mem_dictSet hp with hpe | hpm
  · subst hpe
    exact ⟨hcf, q, k, rfl⟩
  · exact hco p hpm

theorem coherent_invalidate {Doc : Type} {hash : String → String} {c : RetrieverCache Doc}
    (hco : coherent hash c) (hh : String) :
    coherent hash (RetrieverCache.invalidate_household c hh) := by
  intro p hp
  exact hco p (List.mem_of_mem_filter hp)

theorem noScope_invalidate {Doc : Type} (c : RetrieverCache Doc) (hh : String) :
    noScope hh (RetrieverCache.invalidate_household c hh) := by
  intro p hp
  have hf := List.of_mem_filter hp
  simpa using hf

theorem noScope_set {Doc : Type} {hash : String → String} {c : RetrieverCache Doc}
    {hh h' : String} (hns : noScope hh c) (hne : h' ≠ hh) (now : Int) (q : String)
    (k : Nat) (d : List Doc) (s : String) :
    noScope hh (RetrieverCache.set hash c now h' q k d s) := by
  intro p hp
  rcases mem_dictSet hp with hpe | hpm
  · subst hpe
    simpa [entryScope] using hne
  · exact hns p hpm

theorem noScope_get {Doc : Type} {hash : String → String} {c : RetrieverCache Doc}
    {hh : String} (hns : noScope hh c) (now : Int) (h' q' : String) (k' : Nat) :
    noScope hh ((RetrieverCache.get hash c now h' q' k').1) := by
  intro p hp
  apply hns p
  revert hp
  unfold RetrieverCache.get
  rcases hd : dictGet (make_key hash h' q' k') c.store with _ | e
  · simp [hd]
  · obtain ⟨d', s', t', hh'⟩ := e
    simp only [hd]
    split
    · intro hp
      exact List.mem_of_mem_filter hp
    · intro hp
      exact hp

theorem get_miss_of_noScope {Doc : Type} {hash : String → String}
    (hinj : Function.Injective hash) {c : RetrieverCache Doc} (hco : coherent hash c)
    {hh : String} (hns : noScope hh c) (hcf : colonFree hh) (now : Int) (q : String)
    (k : Nat) :
    (RetrieverCache.get hash c now hh q k).2 = none := by
  rcases hd : dictGet (make_key hash hh q k) c.store with _ | e
  · unfold RetrieverCache.get
    simp [hd]
  · exfalso
    have hm := dictGet_mem hd
    obtain ⟨hcf', q', k', hk⟩ := hco _ hm
    have hraw : rawKey hh q k = rawKey (entryScope e) q' k' := hinj hk
    have hhh := (rawKey_inj hcf hcf' hraw).1
    exact hns _ hm hhh.symm

theorem get_hit {Doc : Type} (hash : String → String) (c : RetrieverCache Doc)
    (now : Int) (h q : String) (k : Nat) (d : List Doc) (s : String) (t : Int)
    (hh0 : String)
    (hd : dictGet (make_key hash h q k) c.store = some (d, s, t, hh0))
    (ht : now - t ≤ c.ttl) :
    (RetrieverCache.get hash c now h q k).2 = some (s, d) := by
  unfold RetrieverCache.get
  simp [hd, not_lt.mpr ht]

/-!
## Claim theorems
-/

/-- C6 counterexample: the claim demands a miss at every `T' ≥ T+t`, but the
code's expiry test is strict (`time.time() > expiry_time`), so at the exact
boundary `T' = T + t` the entry is still returned: `set` at time 0 with
`ttl = 5` followed by `get` at time 5 yields the value, not absence. -/
theorem C6_counterexample :
    (TTLCache.get (TTLCache.set (⟨[], 300⟩ : TTLCache Nat) "k" (some 7) (some 5) 0) 5 "k").2
      = some 7
    ∧ (some 7 : Option Nat) ≠ none :=
  ⟨rfl, by decide⟩

/-- C6 (amended): if `set(k, v, ttl=t)` is called at time `T`, then `get(k)`
returns `v` at every `T'` with `T ≤ T' ≤ T + t`, and at every `T' > T + t` it
returns absent and evicts the entry as a side effect. -/
theorem C6_ttl_expiry_amended {α : Type} (c : TTLCache α) (k : String) (v : Option α)
    (t T T' : Int) (hfresh : T ≤ T') :
    (T' ≤ T + t → (TTLCache.get (TTLCache.set c k v (some t) T) T' k).2 = v)
    ∧ (T + t < T' →
        TTLCache.get (TTLCache.set c k v (some t) T) T' k
          = (TTLCache.delete (TTLCache.set c k v (some t) T) k, none)) := by
  have hg : dictGet k (TTLCache.set c k v (some t) T).cache = some (v, T + t) := by
    simp [TTLCache.set, dictGet_dictSet_self]
  constructor
  · intro h2
    simp [TTLCache.get, hg, not_lt.mpr h2]
  · intro h2
    simp [TTLCache.get, hg, h2, TTLCache.delete]

/-- C6 witness: concrete instance of the amended theorem at `T = 0`, `t = 5`,
with a fresh read at `T' = 3` and an expired read at `T' = 6`. -/
theorem C6_witness :
    (TTLCache.get (TTLCache.set (⟨[], 300⟩ : TTLCache Nat) "k" (some 7) (some 5) 0) 3 "k").2
      = some 7
    ∧ TTLCache.get (TTLCache.set (⟨[], 300⟩ : TTLCache Nat) "k" (some 7) (some 5) 0) 6 "k"
        = (TTLCache.delete (TTLCache.set (⟨[], 300⟩ : TTLCache Nat) "k" (some 7) (some 5) 0) "k",
           none) :=
  ⟨(C6_ttl_expiry_amended (⟨[], 300⟩ : TTLCache Nat) "k" (some 7) 5 0 3 (by decide)).1 (by decide),
   (C6_ttl_expiry_amended (⟨[], 300⟩ : TTLCache Nat) "k" (some 7) 5 0 6 (by decide)).2 (by decide)⟩

/-- C9 counterexample: `set` accepts `ttl_seconds = 0` (the parameter is a
plain `int`), and then the stored expiry equals the creation time instead of
being strictly greater: `set("k", 1, ttl_seconds=0)` at time 10 stores
expiry 10. -/
theorem C9_counterexample :
    dictGet "k" (TTLCache.set (⟨[], 300⟩ : TTLCache Nat) "k" (some 1) (some 0) 10).cache
      = some (some 1, 10)
    ∧ ¬ ((10 : Int) < 10) :=
  ⟨rfl, by decide⟩

/-- C9 (amended): for every `set` whose effective TTL is positive — a positive
explicit `ttl_seconds`, or an omitted argument on an instance whose default
TTL is positive — the stored expiry `now + ttl` is strictly greater than the
creation time `now`. -/
theorem C9_expiry_after_creation_amended {α : Type} (c : TTLCache α) (k : String)
    (v : Option α) (t now : Int) :
    (0 < t →
      dictGet k (TTLCache.set c k v (some t) now).cache = some (v, now + t)
      ∧ now < now + t)
    ∧ (0 < c.default_ttl_seconds →
      dictGet k (TTLCache.set c k v none now).cache = some (v, now + c.default_ttl_seconds)
      ∧ now < now + c.default_ttl_seconds) := by
  refine ⟨fun ht => ⟨?_, by omega⟩, fun ht => ⟨?_, by omega⟩⟩
  · simp [TTLCache.set, dictGet_dictSet_self]
  · simp [TTLCache.set, dictGet_dictSet_self]

/-- C9 witness: the amended theorem at `ttl_seconds = 60` and at the omitted
argument on the process-wide default of 300 seconds, at time 10. -/
theorem C9_witness :
    (dictGet "k" (TTLCache.set (⟨[], 300⟩ : TTLCache Nat) "k" (some 1) (some 60) 10).cache
       = some (some 1, 70)
     ∧ (10 : Int) < 70)
    ∧ (dictGet "k" (TTLCache.set (⟨[], 300⟩ : TTLCache Nat) "k" (some 1) none 10).cache
       = some (some 1, 310)
     ∧ (10 : Int) < 310) :=
  ⟨(C9_expiry_after_creation_amended (⟨[], 300⟩ : TTLCache Nat) "k" (some 1) 60 10).1 (by decide),
   (C9_expiry_after_creation_amended (⟨[], 300⟩ : TTLCache Nat) "k" (some 1) 60 10).2 (by decide)⟩

/-- C10: a stored `None` is indistinguishable from absence at the `TTLCache`
interface — after `set(k, None, t)` every `get(k)` returns `None`, exactly as
for a key never set — and consequently a `cached`-wrapped function whose
computed result is `None` is invoked again (invocation count 1, not 0) on the
next call with the same key. -/
theorem C10_stored_none_is_absent {α : Type} (c : TTLCache α) (k : String)
    (t T T' : Int) (f : Unit → Option α)
    (hmiss : (TTLCache.get c T k).2 = none) (hf : f () = none) :
    (TTLCache.get (TTLCache.set c k none (some t) T) T' k).2 = none
    ∧ (dictGet k c.cache = none → (TTLCache.get c T' k).2 = none)
    ∧ (cachedCall (cachedCall c T k t f).1 T' k t f).2.2 = 1 := by
  have hg : dictGet k (TTLCache.set c k none (some t) T).cache = some (none, T + t) := by
    simp [TTLCache.set, dictGet_dictSet_self]
  refine ⟨?_, fun habs => ?_, ?_⟩
  · by_cases hT : T' > T + t <;> simp [TTLCache.get, hg, hT]
  · simp [TTLCache.get, habs]
  · have hc1 : (cachedCall c T k t f).1
        = TTLCache.set (TTLCache.get c T k).1 k none (some t) T := by
      rw [cachedCall_of_get_none c T k t f hmiss, hf]
    have hg1 : dictGet k ((cachedCall c T k t f).1).cache = some (none, T + t) := by
      rw [hc1]
      simp [TTLCache.set, dictGet_dictSet_self]
    have hget : (TTLCache.get (cachedCall c T k t f).1 T' k).2 = none := by
      by_cases hT : T' > T + t <;> simp [TTLCache.get, hg1, hT]
    rw [cachedCall_of_get_none _ T' k t f hget]

/-- C10 witness: concrete instance on the empty cache with `f` constantly
`None`, first call at time 0, second at time 1, TTL 60. -/
theorem C10_witness :
    (TTLCache.get (TTLCache.set (⟨[], 300⟩ : TTLCache Nat) "k" none (some 60) 0) 1 "k").2 = none
    ∧ (TTLCache.get (⟨[], 300⟩ : TTLCache Nat) 1 "k").2 = none
    ∧ (cachedCall (cachedCall (⟨[], 300⟩ : TTLCache Nat) 0 "k" 60 (fun _ => none)).1
        1 "k" 60 (fun _ => none)).2.2 = 1 :=
  ⟨(C10_stored_none_is_absent (⟨[], 300⟩ : TTLCache Nat) "k" 60 0 1 (fun _ => none)
      rfl rfl).1,
   (C10_stored_none_is_absent (⟨[], 300⟩ : TTLCache Nat) "k" 60 0 1 (fun _ => none)
      rfl rfl).2.1 rfl,
   (C10_stored_none_is_absent (⟨[], 300⟩ : TTLCache Nat) "k" 60 0 1 (fun _ => none)
      rfl rfl).2.2⟩

/-- C7 counterexample: a wrapped function whose result is `None` is
re-executed on an identical call within the TTL window — the second call's
invocation count is 1, not the 0 the claim requires. -/
theorem C7_counterexample :
    (cachedCall (cachedCall (⟨[], 300⟩ : TTLCache Nat) 0 "k" 60 (fun _ => none)).1
        1 "k" 60 (fun _ => none)).2.2 = 1
    ∧ (1 : Nat) ≠ 0 :=
  ⟨rfl, by decide⟩

/-- C7 (amended): on a miss the wrapped function is invoked exactly once, its
result stored and returned; and an identical call within the TTL window is
served from the cache without re-execution provided the computed result was
not `None` (a `None` result is conflated with a miss by `get` and is never
served from the cache). -/
theorem C7_cached_decorator_amended {α : Type} (c : TTLCache α) (T T' : Int)
    (key : String) (ttl : Int) (f : Unit → Option α) (x : α)
    (hmiss : (TTLCache.get c T key).2 = none) (hf : f () = some x)
    (h1 : T ≤ T') (h2 : T' ≤ T + ttl) :
    (cachedCall c T key ttl f).2.2 = 1
    ∧ (cachedCall c T key ttl f).2.1 = some x
    ∧ dictGet key ((cachedCall c T key ttl f).1).cache = some (some x, T + ttl)
    ∧ (cachedCall ((cachedCall c T key ttl f).1) T' key ttl f).2.1 = some x
    ∧ (cachedCall ((cachedCall c T key ttl f).1) T' key ttl f).2.2 = 0 := by
  have hc1 : (cachedCall c T key ttl f).1
      = TTLCache.set (TTLCache.get c T key).1 key (some x) (some ttl) T := by
    rw [cachedCall_of_get_none c T key ttl f hmiss, hf]
  have hg1 : dictGet key ((cachedCall c T key ttl f).1).cache = some (some x, T + ttl) := by
    rw [hc1]
    simp [TTLCache.set, dictGet_dictSet_self]
  have hget : (TTLCache.get ((cachedCall c T key ttl f).1) T' key).2 = some x := by
    simp [TTLCache.get, hg1, not_lt.mpr h2]
  refine ⟨?_, ?_, hg1, ?_, ?_⟩
  · rw [cachedCall_of_get_none c T key ttl f hmiss]
  · rw [cachedCall_of_get_none c T key ttl f hmiss]
    exact hf
  · rw [cachedCall_of_get_some _ T' key ttl f x hget]
  · rw [cachedCall_of_get_some _ T' key ttl f x hget]

/-- C7 witness: concrete instance on the empty cache with `f` returning 7,
first call at time 0, second at the TTL boundary `T' = 60`. -/
theorem C7_witness :
    (cachedCall (⟨[], 300⟩ : TTLCache Nat) 0 "k" 60 (fun _ => some 7)).2.2 = 1
    ∧ (cachedCall (⟨[], 300⟩ : TTLCache Nat) 0 "k" 60 (fun _ => some 7)).2.1 = some 7
    ∧ dictGet "k" ((cachedCall (⟨[], 300⟩ : TTLCache Nat) 0 "k" 60 (fun _ => some 7)).1).cache
        = some (some 7, 60)
    ∧ (cachedCall ((cachedCall (⟨[], 300⟩ : TTLCache Nat) 0 "k" 60 (fun _ => some 7)).1)
        60 "k" 60 (fun _ => some 7)).2.1 = some 7
    ∧ (cachedCall ((cachedCall (⟨[], 300⟩ : TTLCache Nat) 0 "k" 60 (fun _ => some 7)).1)
        60 "k" 60 (fun _ => some 7)).2.2 = 0 :=
  C7_cached_decorator_amended (⟨[], 300⟩ : TTLCache Nat) 0 60 "k" 60 (fun _ => some 7) 7
    rfl rfl (by decide) (by decide)

/-- C4: each of the four pantry mutation handlers, on a successful service
call, deletes both the household listing key and the acting user's listing key
before returning the response, and a direct read of either key in the
resulting cache map is absent. -/
theorem C4_mutation_invalidates_listing_keys {ε ρ ι α : Type} (c : TTLCache α)
    (h u item_id : String) (r : ρ) (i : ι) (items : List ι) :
    add_single_pantry_item (Except.ok (some r) : Except ε (Option ρ)) c h u
      = (Except.ok r, invalidate_user_cache (invalidate_household_cache c h) h u)
    ∧ add_multiple_pantry_items (i :: items) (Except.ok (some r) : Except ε (Option ρ)) c h u
      = (Except.ok r, invalidate_user_cache (invalidate_household_cache c h) h u)
    ∧ update_pantry_item (Except.ok (some r) : Except ε (Option ρ)) c h u
      = (Except.ok r, invalidate_user_cache (invalidate_household_cache c h) h u)
    ∧ delete_pantry_item item_id (Except.ok (some r) : Except ε (Option ρ)) c h u
      = (Except.ok r, invalidate_user_cache (invalidate_household_cache c h) h u)
    ∧ dictGet (hh_cache_key h)
        (invalidate_user_cache (invalidate_household_cache c h) h u).cache = none
    ∧ dictGet (user_cache_key h u)
        (invalidate_user_cache (invalidate_household_cache c h) h u).cache = none := by
  refine ⟨rfl, by simp [add_multiple_pantry_items], rfl, rfl, ?_, ?_⟩
  · have h1 : dictGet (hh_cache_key h) (invalidate_household_cache c h).cache = none := by
      simp [invalidate_household_cache, TTLCache.delete, hh_cache_key, dictGet_dictDelete_self]
    simpa [invalidate_user_cache, TTLCache.delete, dictDelete] using
      dictGet_filter_none _ h1
  · simp [invalidate_user_cache, TTLCache.delete, user_cache_key, dictGet_dictDelete_self]

/-- C8: if the pantry service call fails — it raises, or it returns `None` and
the handler raises — every pantry mutation handler leaves the cache exactly as
it was. -/
theorem C8_no_invalidation_on_failure {ε ρ ι α : Type} (e : ε) (c : TTLCache α)
    (h u item_id : String) (items : List ι) :
    (add_single_pantry_item (Except.error e : Except ε (Option ρ)) c h u).2 = c
    ∧ (add_single_pantry_item (Except.ok none : Except ε (Option ρ)) c h u).2 = c
    ∧ (add_multiple_pantry_items items (Except.error e : Except ε (Option ρ)) c h u).2 = c
    ∧ (add_multiple_pantry_items items (Except.ok none : Except ε (Option ρ)) c h u).2 = c
    ∧ (update_pantry_item (Except.error e : Except ε (Option ρ)) c h u).2 = c
    ∧ (update_pantry_item (Except.ok none : Except ε (Option ρ)) c h u).2 = c
    ∧ (delete_pantry_item item_id (Except.error e : Except ε (Option ρ)) c h u).2 = c
    ∧ (delete_pantry_item item_id (Except.ok none : Except ε (Option ρ)) c h u).2 = c := by
  refine ⟨rfl, rfl, ?_, ?_, rfl, rfl, rfl, rfl⟩
  · cases items <;> simp [add_multiple_pantry_items]
  · cases items <;> simp [add_multiple_pantry_items]

/-- C3 counterexample: a successful household join returns with the cached
listing entries of both the old and the new household scope still present —
the handler performs no invalidation at all. -/
theorem C3_counterexample :
    (join_household (Except.ok 0 : Except Nat Nat)
      (⟨[(hh_cache_key "OLD", (some 1, 100)), (hh_cache_key "NEW", (some 2, 100))], 300⟩
        : TTLCache Nat)
      (⟨300, [], []⟩ : RetrieverCache Nat)).1 = Except.ok 0
    ∧ dictGet (hh_cache_key "OLD")
        ((join_household (Except.ok 0 : Except Nat Nat)
          (⟨[(hh_cache_key "OLD", (some 1, 100)), (hh_cache_key "NEW", (some 2, 100))], 300⟩
            : TTLCache Nat)
          (⟨300, [], []⟩ : RetrieverCache Nat)).2.1).cache = some (some 1, 100)
    ∧ dictGet (hh_cache_key "NEW")
        ((join_household (Except.ok 0 : Except Nat Nat)
          (⟨[(hh_cache_key "OLD", (some 1, 100)), (hh_cache_key "NEW", (some 2, 100))], 300⟩
            : TTLCache Nat)
          (⟨300, [], []⟩ : RetrieverCache Nat)).2.1).cache = some (some 2, 100) := by
  refine ⟨rfl, ?_, ?_⟩ <;> simp [join_household, hh_cache_key, dictGet]

/-- C3 (amended): the household join and leave handlers delegate to the
household service and perform no cache invalidation: the generic cache and the
retriever cache pass through unchanged, so the cached listing entries of both
the old and the new household scope survive the operation (their staleness is
bounded only by the TTL). -/
theorem C3_join_leave_no_invalidation_amended {ε ρ α Doc : Type} (svc : Except ε ρ)
    (tc : TTLCache α) (rc : RetrieverCache Doc) (h_old h_new : String) :
    join_household svc tc rc = (svc, tc, rc)
    ∧ leave_household svc tc rc = (svc, tc, rc)
    ∧ dictGet (hh_cache_key h_old) ((join_household svc tc rc).2.1).cache
        = dictGet (hh_cache_key h_old) tc.cache
    ∧ dictGet (hh_cache_key h_new) ((join_household svc tc rc).2.1).cache
        = dictGet (hh_cache_key h_new) tc.cache
    ∧ ((leave_household svc tc rc).2.2) = rc :=
  ⟨rfl, rfl, rfl, rfl, rfl⟩

/-- C1: evaluation of the code at the failing input.  A retriever-cache entry
scoped to household `"H"` is populated; a pantry add for `"H"` succeeds and
returns; the entry is still retrievable afterwards (no handler ever calls
`RetrieverCache.invalidate_household`), so a cache get for the affected scope
issued after the write returns pre-write data instead of missing. -/
theorem C1_retriever_cache_stale_after_write :
    (add_single_pantry_item_full (Except.ok (some 1) : Except Nat (Option Nat))
      (⟨[], 300⟩ : TTLCache Nat)
      (RetrieverCache.set id (⟨300, [], []⟩ : RetrieverCache Nat) 0 "H" "milk" 5 [7]
        "milk content")
      "H" "U").1 = Except.ok 1
    ∧ (RetrieverCache.get id
        ((add_single_pantry_item_full (Except.ok (some 1) : Except Nat (Option Nat))
          (⟨[], 300⟩ : TTLCache Nat)
          (RetrieverCache.set id (⟨300, [], []⟩ : RetrieverCache Nat) 0 "H" "milk" 5 [7]
            "milk content")
          "H" "U").2.2)
        10 "H" "milk" 5).2 = some ("milk content", [7]) := by
  constructor
  · rfl
  · simp [add_single_pantry_item_full, add_single_pantry_item, RetrieverCache.get,
      RetrieverCache.set, make_key, rawKey, dictGet_dictSet_self]

/-- C2: scoped invalidation of the retriever cache.  After `set(h1, q, k, …)`
and `set(h2, q, k, …)` with distinct (colon-free) household scopes, once
`invalidate_household(h1)` returns, `get(h1, q, k)` is absent regardless of
TTL while `get(h2, q, k)` still returns `(text2, docs2)`; and in general,
starting from any coherent state, `invalidate_household(h1)` establishes that
no entry carries scope `h1`, any state with that property makes every
`get(h1, q', k')` miss, and the property is preserved by `set` for a different
scope and by `get`.  The hypotheses make explicit what the claim's "negligible
hash-collision probability" waives: the hash is collision-free. -/
theorem C2_scoped_invalidation {Doc : Type} (hash : String → String)
    (hinj : Function.Injective hash) (c : RetrieverCache Doc)
    (hco : coherent hash c) (h1 h2 q : String) (k : Nat)
    (docs docs2 : List Doc) (text text2 : String) (t1 t2 t3 : Int)
    (hcf1 : colonFree h1) (hcf2 : colonFree h2) (hne : h1 ≠ h2)
    (httl : t3 - t2 ≤ c.ttl) :
    ((RetrieverCache.get hash
        ((RetrieverCache.set hash (RetrieverCache.set hash c t1 h1 q k docs text)
            t2 h2 q k docs2 text2).invalidate_household h1) t3 h1 q k).2 = none
      ∧ (RetrieverCache.get hash
        ((RetrieverCache.set hash (RetrieverCache.set hash c t1 h1 q k docs text)
            t2 h2 q k docs2 text2).invalidate_household h1) t3 h2 q k).2
          = some (text2, docs2))
    ∧ (∀ c' : RetrieverCache Doc, noScope h1 (RetrieverCache.invalidate_household c' h1))
    ∧ (∀ (c' : RetrieverCache Doc) (t' : Int) (q' : String) (k' : Nat),
        coherent hash c' → noScope h1 c' →
        (RetrieverCache.get hash c' t' h1 q' k').2 = none)
    ∧ (∀ (c' : RetrieverCache Doc) (t' : Int) (h' q' : String) (k' : Nat)
        (d' : List Doc) (s' : String), noScope h1 c' → h' ≠ h1 →
        noScope h1 (RetrieverCache.set hash c' t' h' q' k' d' s'))
    ∧ (∀ (c' : RetrieverCache Doc) (t' : Int) (h' q' : String) (k' : Nat),
        noScope h1 c' → noScope h1 ((RetrieverCache.get hash c' t' h' q' k').1)) := by
  refine ⟨⟨?_, ?_⟩, fun c' => noScope_invalidate c' h1,
    fun c' t' q' k' hco' hns' => get_miss_of_noScope hinj hco' hns' hcf1 t' q' k',
    fun c' t' h' q' k' d' s' hns' hne' => noScope_set hns' hne' t' q' k' d' s',
    fun c' t' h' q' k' hns' => noScope_get hns' t' h' q' k'⟩
  · exact get_miss_of_noScope hinj
      (coherent_invalidate
        (coherent_set (coherent_set hco hcf1 t1 q k docs text) hcf2 t2 q k docs2 text2) h1)
      (noScope_invalidate _ h1) hcf1 t3 q k
  · have hg2 : dictGet (make_key hash h2 q k)
        ((RetrieverCache.set hash (RetrieverCache.set hash c t1 h1 q k docs text)
          t2 h2 q k docs2 text2).store) = some (docs2, text2, t2, h2) :=
      dictGet_dictSet_self _ _ _
    have hgf : dictGet (make_key hash h2 q k)
        (((RetrieverCache.set hash (RetrieverCache.set hash c t1 h1 q k docs text)
          t2 h2 q k docs2 text2).invalidate_household h1).store)
          = some (docs2, text2, t2, h2) := by
      apply dictGet_filter _ hg2
      simp [entryScope]
      exact Ne.symm hne
    exact get_hit hash _ t3 h2 q k docs2 text2 t2 h2 hgf httl

/-- C2 witness: the scenario instantiated with `hash = id` on the empty cache,
scopes `"h1"`/`"h2"`, query `"milk"`, `k = 5`, set times 0 and 1, read time 2. -/
theorem C2_witness :
    (RetrieverCache.get id
      ((RetrieverCache.set id
          (RetrieverCache.set id (⟨300, [], []⟩ : RetrieverCache Nat) 0 "h1" "milk" 5 [1] "a")
          1 "h2" "milk" 5 [2] "b").invalidate_household "h1") 2 "h1" "milk" 5).2 = none
    ∧ (RetrieverCache.get id
      ((RetrieverCache.set id
          (RetrieverCache.set id (⟨300, [], []⟩ : RetrieverCache Nat) 0 "h1" "milk" 5 [1] "a")
          1 "h2" "milk" 5 [2] "b").invalidate_household "h1") 2 "h2" "milk" 5).2
        = some ("b", [2]) := by
  have H := @C2_scoped_invalidation Nat id (fun a b hab => hab) ⟨300, [], []⟩
    (by intro p hp; exact absurd hp (List.not_mem_nil p)) "h1" "h2" "milk" 5 [1] [2] "a" "b"
    0 1 2 (by show ':' ∉ "h1".data; decide) (by show ':' ∉ "h2".data; decide)
    (by decide) (by show (2 : Int) - 1 ≤ 300; decide)
  exact ⟨H.1.1, H.1.2⟩

/-- C5 counterexample: key derivation is deterministic but not distinguishing
for all distinct triples — the colon-joined concatenation is ambiguous, so the
distinct triples `("a:b", "c", 5)` and `("a", "b:c", 5)` produce the identical
raw string, hence the identical derived key with certainty (for every hash
function, not merely with hash-collision probability). -/
theorem C5_counterexample :
    rawKey "a:b" "c" 5 = rawKey "a" "b:c" 5
    ∧ (("a:b", "c", 5) : String × String × Nat) ≠ ("a", "b:c", 5)
    ∧ make_key id "a:b" "c" 5 = make_key id "a" "b:c" 5 :=
  ⟨by decide, by decide, by decide⟩

/-- C5 (amended): `make_key` is deterministic (identical arguments give the
identical key), and for triples whose household scopes are colon-free —
true of every scope the system uses (UUID strings and `"global"`) — distinct
triples give distinct raw strings, hence distinct keys modulo hash collisions;
without that restriction ambiguous concatenations collide with certainty. -/
theorem C5_key_derivation_amended (hash : String → String) (h1 h2 q1 q2 : String)
    (k1 k2 : Nat) (hcf1 : colonFree h1) (hcf2 : colonFree h2) :
    make_key hash h1 q1 k1 = make_key hash h1 q1 k1
    ∧ (rawKey h1 q1 k1 = rawKey h2 q2 k2 → h1 = h2 ∧ q1 = q2 ∧ k1 = k2)
    ∧ (((h1, q1, k1) : String × String × Nat) ≠ (h2, q2, k2) →
        rawKey h1 q1 k1 ≠ rawKey h2 q2 k2) := by
  refine ⟨rfl, fun he => rawKey_inj hcf1 hcf2 he, fun hne he => ?_⟩
  obtain ⟨ha, hb, hc⟩ := rawKey_inj hcf1 hcf2 he
  exact hne (by rw [ha, hb, hc])

/-- C5 witness: determinism and distinctness at the concrete colon-free scopes
`"house-A"`, `"house-B"` with query `"milk"` and `k = 5`. -/
theorem C5_witness :
    make_key id "house-A" "milk" 5 = make_key id "house-A" "milk" 5
    ∧ rawKey "house-A" "milk" 5 ≠ rawKey "house-B" "milk" 5 :=
  ⟨(C5_key_derivation_amended id "house-A" "house-B" "milk" "milk" 5 5
      (by show ':' ∉ "house-A".data; decide) (by show ':' ∉ "house-B".data; decide)).1,
   (C5_key_derivation_amended id "house-A" "house-B" "milk" "milk" 5 5
      (by show ':' ∉ "house-A".data; decide) (by show ':' ∉ "house-B".data; decide)).2.2
     (by decide)⟩

end PantrySpec
